import Mathlib

/-!
Verification of the client-side batch operation pipeline of VisionLab-Pro
(frontend script, `src/unnamed/part_000`).

The shallow embedding below translates the pipeline state and functions
from the JavaScript source:

* the module-level mutable variables (`loadedImages`, `selectedImageIndices`,
  `currentOperation`, `operationQueue`) become the fields of `AppState`;
* DOM rendering, toast messages, progress bars and button CSS classes are
  dropped (pure presentation, read by no pipeline decision);
* each `fetch` to the backend is an invocation of an oracle
  `Remote : String -> String -> Option String` (endpoint name, image payload
  -> response payload, or `none` for a transport / non-ok-status failure);
  the invocations a run performs are collected in a `trace` so theorems can
  speak about how many remote calls were issued and with which inputs;
* canvas drawing used by the analysis operations is abstracted as the
  deterministic function `renderComposite` of the response payload
  (the spec, section 4.4, itself requires that rendering to be a pure
  deterministic function of the structured response);
* `Date.now()` timing enters as an explicit `elapsed`/`now` parameter.
-/

/-- Operation identifiers as referenced throughout the source
(`data-operation` values of the operation buttons; the button markup itself
lives in the HTML file outside this excerpt, but every identifier below
appears literally in the script: `showControls`, `addOperationParameters`,
`excludedFromQueue`, `processSingleImage`). -/
inductive Op
  | rotate
  | blur
  | threshold
  | resize
  | edgeDetection
  | colorManipulation
  | crop
  | addText
  | translate
  | flip
  | grayscale
  | dimensions
  | compareDimensions
  | rgbChannels
  | hsvConvert
deriving DecidableEq, Repr

/-- The `data-operation` string of each operation. -/
def opName : Op → String
  | .rotate => "rotate"
  | .blur => "blur"
  | .threshold => "threshold"
  | .resize => "resize"
  | .edgeDetection => "edge-detection"
  | .colorManipulation => "color-manipulation"
  | .crop => "crop"
  | .addText => "add-text"
  | .translate => "translate"
  | .flip => "flip"
  | .grayscale => "grayscale"
  | .dimensions => "dimensions"
  | .compareDimensions => "compare-dimensions"
  | .rgbChannels => "rgb-channels"
  | .hsvConvert => "hsv-convert"

/-- Line 11 of the source:
`excludedFromQueue = ['dimensions', 'compare-dimensions', 'rgb-channels', 'hsv-convert']`
— operations that cannot be queued. -/
def excludedFromQueue : List String :=
  ["dimensions", "compare-dimensions", "rgb-channels", "hsv-convert"]

/-- `excludedFromQueue.includes(operation)`. -/
def isExcluded (op : Op) : Bool := excludedFromQueue.contains (opName op)

/-- One loaded image, as constructed by `loadSingleImage` and mutated by the
dispatcher.  `metadata` is flattened into the record.  The source also stores
`grayscaleData` on the image object (assigned in `processSingleImage` when
the grayscale operation succeeds). -/
structure ImageData where
  id : String
  name : String
  size : Nat
  mimeType : String
  src : String
  processedSrc : Option String
  selected : Bool
  processing : Bool
  processed : Bool
  grayscaleData : Option String
  width : Nat
  height : Nat
  lastOperation : Option String
  processingTime : Nat
deriving DecidableEq, Repr

/-- The module-level mutable state of the pipeline.  (`processedImages` is
also a module-level array in the source but it is only ever reset and never
read by the pipeline, so it is omitted; `currentView` and the DOM are
presentation only.) -/
structure AppState where
  loadedImages : List ImageData
  selectedImageIndices : List Nat
  currentOperation : Option Op
  operationQueue : List Op
deriving DecidableEq, Repr

/-- State at page load: all module-level variables empty / null. -/
def initState : AppState :=
  { loadedImages := [], selectedImageIndices := [], currentOperation := none,
    operationQueue := [] }

/-- Raw file metadata handed to `loadSingleImage` (from the file input). -/
structure FileInfo where
  name : String
  size : Nat
  type : String
deriving DecidableEq, Repr

/-- Successful outcome of the `FileReader` + `Image` decode of one file:
the data URL and the probed dimensions. -/
structure DecodeOk where
  src : String
  width : Nat
  height : Nat
deriving DecidableEq, Repr

/-- `loadSingleImage` (lines 118-160): builds the image record for one
decoded file.  `id` is `img_<index>_<Date.now()>`; every derived field
starts cleared (`processedSrc: null`, `processed: false`, ...). -/
def loadSingleImage (now idx : Nat) (f : FileInfo) (d : DecodeOk) : ImageData :=
  { id := "img_" ++ toString idx ++ "_" ++ toString now
    name := f.name
    size := f.size
    mimeType := f.type
    src := d.src
    processedSrc := none
    selected := false
    processing := false
    processed := false
    grayscaleData := none
    width := d.width
    height := d.height
    lastOperation := none
    processingTime := 0 }

/-- The indexed decode results of `files.map((file, index) => loadSingleImage(file, index))`,
in submission order; `none` marks a file whose decode rejected. -/
def decodeResultsFrom (now : Nat) : Nat → List (FileInfo × Option DecodeOk) → List (Option ImageData)
  | _, [] => []
  | i, (f, d) :: rest => (d.map (loadSingleImage now i f)) :: decodeResultsFrom now (i + 1) rest

def decodeResults (now : Nat) (files : List (FileInfo × Option DecodeOk)) :
    List (Option ImageData) :=
  decodeResultsFrom now 0 files

/-- `handleMultipleImageLoad` (lines 73-116).  With no files it returns at
once.  Otherwise it clears `loadedImages`, `processedImages` and
`selectedImageIndices` up front, then runs all decodes under `Promise.all`:
if every decode resolves, `loadedImages` becomes the result array in
submission order; if any decode rejects, `Promise.all` rejects and the
`.then` assignment never runs, so the registry stays as cleared (empty).
The operation queue and current operation are not touched. -/
def handleMultipleImageLoad (now : Nat) (files : List (FileInfo × Option DecodeOk))
    (s : AppState) : AppState :=
  if files = [] then s
  else
    let results := decodeResults now files
    if results.all Option.isSome then
      { s with loadedImages := results.filterMap id, selectedImageIndices := [] }
    else
      { s with loadedImages := [], selectedImageIndices := [] }

/-- `toggleImageSelection` (lines 443-455): flips `selected` on the image and
pushes / filters its index out of `selectedImageIndices`.  (Out-of-range
indices are never produced by the gallery; the guard mirrors the fact that
the source would fault before mutating anything.) -/
def toggleImageSelection (i : Nat) (s : AppState) : AppState :=
  match s.loadedImages[i]? with
  | none => s
  | some img =>
    let imgs := s.loadedImages.set i { img with selected := !img.selected }
    let sel :=
      if img.selected then s.selectedImageIndices.filter (· ≠ i)
      else s.selectedImageIndices ++ [i]
    { s with loadedImages := imgs, selectedImageIndices := sel }

/-- `selectOperation` (lines 463-504).  Requires images to be loaded.  For an
operation in `excludedFromQueue` the queue is cleared and the operation
becomes `currentOperation` alone ("these operations run alone and clear the
queue").  A composable operation toggles: if present it is filtered out,
otherwise appended; `currentOperation` becomes the last queue entry or null. -/
def selectOperation (op : Op) (s : AppState) : AppState :=
  if s.loadedImages = [] then s
  else if isExcluded op then
    { s with operationQueue := [], currentOperation := some op }
  else if op ∈ s.operationQueue then
    let q := s.operationQueue.filter (· ≠ op)
    { s with operationQueue := q, currentOperation := q.getLast? }
  else
    let q := s.operationQueue ++ [op]
    { s with operationQueue := q, currentOperation := q.getLast? }

/-- `removeFromQueue` (lines 513-533): filter the entry out; if the queue
became empty the current operation is cleared, else it is the new last
entry. -/
def removeFromQueue (op : Op) (s : AppState) : AppState :=
  let q := s.operationQueue.filter (· ≠ op)
  if q = [] then { s with operationQueue := [], currentOperation := none }
  else { s with operationQueue := q, currentOperation := q.getLast? }

/-- `clearOperationQueue` (lines 535-544). -/
def clearOperationQueue (s : AppState) : AppState :=
  { s with operationQueue := [], currentOperation := none }

/-- `removeSingle` (lines 1480-1498): splice the image out and re-index the
selected indices (`filter(i => i !== index).map(i => i > index ? i - 1 : i)`). -/
def removeSingle (i : Nat) (s : AppState) : AppState :=
  if i < s.loadedImages.length then
    { s with
      loadedImages := s.loadedImages.eraseIdx i
      selectedImageIndices :=
        (s.selectedImageIndices.filter (· ≠ i)).map (fun j => if i < j then j - 1 else j) }
  else s

/-- `clearAllImages` (lines 1461-1478). -/
def clearAllImages (s : AppState) : AppState :=
  { s with loadedImages := [], selectedImageIndices := [],
           currentOperation := none, operationQueue := [] }

/-- The list of operations a dispatch actually executes, read off the
branching of `processSelectedImages` (lines 863-904): the queue itself when
it holds more than one entry, otherwise the single `currentOperation`.  This
is the realization of the spec-level "Operation Queue" abstraction: after an
exclusive selection the source keeps `operationQueue = []` and carries the
operation in `currentOperation`, and the dispatcher then runs exactly that
one operation. -/
def effectiveQueue (s : AppState) : List Op :=
  if 1 < s.operationQueue.length then s.operationQueue
  else
    match s.currentOperation with
    | some op => [op]
    | none => []

/-- The backend reached over HTTP, as an oracle: endpoint name (the
`${operation}` path segment of `/api/${operation}`) and the `image_data`
payload map to either a response payload (`some`) or a transport /
non-ok-status failure (`none`).  Operation-specific form parameters are read
from the DOM at call time and do not depend on the pipeline state, so the
oracle is understood to close over them. -/
abbrev Remote : Type := String → String → Option String

/-- One outbound request issued by `processSingleImage`. -/
structure RemoteCall where
  endpoint : String
  payload : String
deriving DecidableEq, Repr

/-- `image.src.split(',')[1]`: the characters after the first comma, or the
string `"undefined"` when there is no comma (JavaScript interpolates the
missing array element as `undefined`). -/
def charsAfterComma : List Char → Option (List Char)
  | [] => none
  | c :: rest => if c = ',' then some rest else charsAfterComma rest

def imagePayload (src : String) : String :=
  match charsAfterComma src.data with
  | some cs => String.mk cs
  | none => "undefined"

/-- The path segment interpolated into `/api/${operation}`; a null
`currentOperation` interpolates as the string `"null"`. -/
def endpointOf : Option Op → String
  | some op => opName op
  | none => "null"

/-- The precondition test of the dimension-comparison step:
`!image.grayscaleData` — missing or empty-string (falsy) grayscale data. -/
def grayscaleMissing (img : ImageData) : Bool :=
  match img.grayscaleData with
  | none => true
  | some s => s = ""

/-- Deterministic stand-in for the canvas composite the client draws from a
structured analysis response (dimensions report, pixel matrix, channel
decomposition, HSV decomposition).  The drawing itself is presentation; what
matters to the pipeline is that it is a pure function of the operation and
the response payload, producing a data URL (`canvas.toDataURL('image/png')`). -/
def renderComposite (endpoint resp : String) : String :=
  "data:image/png;base64,composite(" ++ endpoint ++ ";" ++ resp ++ ")"

/-- Result of one `processSingleImage` call: the `{success, processedImage}`
/ `{success: false, error}` object (as an `Except`), the image object after
the call (the grayscale branch writes `image.grayscaleData`), and the remote
calls issued. -/
structure StepOutput where
  result : Except String String
  image : ImageData
  trace : List RemoteCall
deriving Repr

/-- `processSingleImage` (lines 936-1256).  In source order: the form data is
built from `image.src`; for `compare-dimensions` with falsy `grayscaleData`
an error is thrown before any `fetch`; otherwise one `fetch` is issued and a
non-ok response throws; on success the operation-specific branch produces
the `processedImage` data URL — the four analysis operations render a
composite canvas, the grayscale branch additionally stores the raw response
on `image.grayscaleData`, and the default branch prefixes the response with
the data-URI header. -/
def processSingleImage (remote : Remote) (img : ImageData) (op : Option Op) : StepOutput :=
  if op = some Op.compareDimensions ∧ grayscaleMissing img then
    { result := .error "Please convert to grayscale first before comparing dimensions"
      image := img
      trace := [] }
  else
    let payload := imagePayload img.src
    let ep := endpointOf op
    match remote ep payload with
    | none =>
      { result := .error "HTTP error", image := img, trace := [⟨ep, payload⟩] }
    | some resp =>
      if op = some Op.dimensions then
        { result := .ok (renderComposite ep resp), image := img, trace := [⟨ep, payload⟩] }
      else if op = some Op.grayscale then
        { result := .ok ("data:image/png;base64," ++ resp)
          image := { img with grayscaleData := some resp }
          trace := [⟨ep, payload⟩] }
      else if op = some Op.compareDimensions then
        { result := .ok (renderComposite ep resp), image := img, trace := [⟨ep, payload⟩] }
      else if op = some Op.rgbChannels then
        { result := .ok (renderComposite ep resp), image := img, trace := [⟨ep, payload⟩] }
      else if op = some Op.hsvConvert then
        { result := .ok (renderComposite ep resp), image := img, trace := [⟨ep, payload⟩] }
      else
        { result := .ok ("data:image/png;base64," ++ resp), image := img, trace := [⟨ep, payload⟩] }

/-- The throw-away object `{src: currentSrc, name: image.name}` built for
each step of a multi-operation chain (lines 871-874); every other property
is absent (falsy / undefined). -/
def tempImage (src nm : String) : ImageData :=
  { id := "", name := nm, size := 0, mimeType := "", src := src,
    processedSrc := none, selected := false, processing := false,
    processed := false, grayscaleData := none, width := 0, height := 0,
    lastOperation := none, processingTime := 0 }

/-- `operationsApplied.join(' → ')`. -/
def joinChain : List Op → String
  | [] => ""
  | [op] => opName op
  | op :: op2 :: rest => opName op ++ " → " ++ joinChain (op2 :: rest)

/-- The inner loop of the multi-operation branch (lines 869-884): each queued
operation runs against a fresh `tempImage` holding the current intermediate
source; on success the output becomes the next input and the operation is
recorded; on failure the chain aborts with
`Failed at operation: ${operation}`. -/
def runChain (remote : Remote) (nm : String) :
    List Op → String → Except String String × List Op × List RemoteCall
  | [], src => (.ok src, [], [])
  | op :: rest, src =>
    let out := processSingleImage remote (tempImage src nm) (some op)
    match out.result with
    | .ok newSrc =>
      let (r, applied, tr) := runChain remote nm rest newSrc
      (r, op :: applied, out.trace ++ tr)
    | .error _ => (.error ("Failed at operation: " ++ opName op), [], out.trace)

/-- `image.processedSrc || image.src` (line 866): the processed output when
present and truthy (non-empty), else the original data. -/
def processedOrOriginal (img : ImageData) : String :=
  match img.processedSrc with
  | some s => if s = "" then img.src else s
  | none => img.src

/-- Outcome of the body of the per-image loop for one image. -/
structure ImageRun where
  image : ImageData
  ok : Bool
  trace : List RemoteCall
deriving Repr

/-- The per-image body of `processSelectedImages` (lines 858-910).  With more
than one queued operation the chain runs over temporary objects starting
from `processedSrc || src`, and only a fully successful chain commits
`processedSrc`, `processed`, `lastOperation` (the joined chain) and
`processingTime`; a mid-chain throw is caught per image and commits nothing.
Otherwise the single `currentOperation` runs against the real image object
(so its `src` feeds the request, and a successful grayscale writes
`grayscaleData` on the registry entry) and commits on success.  Either way
`image.processing` ends false. -/
def processImageAt (remote : Remote) (elapsed : Nat) (queue : List Op)
    (curOp : Option Op) (img : ImageData) : ImageRun :=
  if 1 < queue.length then
    match runChain remote img.name queue (processedOrOriginal img) with
    | (.ok finalSrc, applied, tr) =>
      { image := { img with processedSrc := some finalSrc, processed := true,
                            lastOperation := some (joinChain applied),
                            processingTime := elapsed, processing := false }
        ok := true, trace := tr }
    | (.error _, _, tr) =>
      { image := { img with processing := false }, ok := false, trace := tr }
  else
    let out := processSingleImage remote img curOp
    match out.result with
    | .ok pImg =>
      { image := { out.image with processedSrc := some pImg, processed := true,
                                  lastOperation := curOp.map opName,
                                  processingTime := elapsed, processing := false }
        ok := true, trace := out.trace }
    | .error _ =>
      { image := { out.image with processing := false }, ok := false, trace := out.trace }

/-- Accumulated outcome of the loop over target indices. -/
structure BatchOut where
  images : List ImageData
  count : Nat
  failures : List Nat
  trace : List RemoteCall
  aborted : Bool
deriving Repr

/-- The loop `for (const index of indices)` (lines 856-916).  `count` mirrors
the `processed` counter, incremented once per completed iteration whether or
not the image's run succeeded.  A target index with no registry entry makes
`loadedImages[index].processing = true` fault; that exception escapes the
per-image handler to the outer try of `processSelectedImages`, aborting the
remaining iterations (`aborted`). -/
def runBatch (remote : Remote) (elapsed : Nat) (queue : List Op) (curOp : Option Op) :
    List Nat → List ImageData → BatchOut
  | [], imgs => { images := imgs, count := 0, failures := [], trace := [], aborted := false }
  | i :: rest, imgs =>
    match imgs[i]? with
    | none => { images := imgs, count := 0, failures := [], trace := [], aborted := true }
    | some img =>
      let step := processImageAt remote elapsed queue curOp img
      let out := runBatch remote elapsed queue curOp rest (imgs.set i step.image)
      { images := out.images
        count := out.count + 1
        failures := if step.ok then out.failures else i :: out.failures
        trace := step.trace ++ out.trace
        aborted := out.aborted }

inductive DispatchError
  | noOperationSelected
  | noTargetsSelected
deriving DecidableEq, Repr

/-- What a dispatch reports: a precondition error (no state touched), an
aborted outer try, or the final `Successfully processed ${processed}/${total}`
tally together with the per-image failures that were surfaced. -/
inductive DispatchResult
  | err : DispatchError → DispatchResult
  | aborted : DispatchResult
  | report : Nat → Nat → List Nat → DispatchResult
deriving DecidableEq, Repr

structure DispatchOut where
  state : AppState
  result : DispatchResult
  trace : List RemoteCall
deriving Repr

/-- `processSelectedImages` (lines 833-934).  Fails up front when no
operation is selected (`currentOperation` null and queue empty) or when the
target index list — the argument when given (`imageIndices || selectedImageIndices`;
an explicit empty array is truthy in JavaScript and is kept) — is empty;
neither failure touches any state or issues a call.  Otherwise the per-image
loop runs and the tally is reported. -/
def processSelectedImages (remote : Remote) (elapsed : Nat) (s : AppState)
    (imageIndices : Option (List Nat)) : DispatchOut :=
  if s.currentOperation = none ∧ s.operationQueue = [] then
    { state := s, result := .err .noOperationSelected, trace := [] }
  else
    let indices := imageIndices.getD s.selectedImageIndices
    if indices = [] then
      { state := s, result := .err .noTargetsSelected, trace := [] }
    else
      let b := runBatch remote elapsed s.operationQueue s.currentOperation indices s.loadedImages
      { state := { s with loadedImages := b.images }
        result := if b.aborted then .aborted else .report b.count indices.length b.failures
        trace := b.trace }

/-! ### Helper lemmas about single steps -/

/-- Any operation other than `compare-dimensions` issues exactly one remote
call, to its own endpoint, carrying the payload extracted from the given
image's `src`. -/
lemma processSingleImage_trace_of_ne (remote : Remote) (img : ImageData) (op : Op)
    (h : op ≠ Op.compareDimensions) :
    (processSingleImage remote img (some op)).trace =
      [⟨opName op, imagePayload img.src⟩] := by
  have hc : ¬(some op = some Op.compareDimensions ∧ grayscaleMissing img = true) := by
    rintro ⟨h1, -⟩
    exact h (by injection h1)
  simp only [processSingleImage, endpointOf, if_neg hc]
  rcases hr : remote (opName op) (imagePayload img.src) with _ | resp <;>
    simp only [hr] <;> first | rfl | (split_ifs <;> rfl)

/-- Every remote call a single-operation step issues carries the payload of
the image's own `src`. -/
lemma processSingleImage_payloads (remote : Remote) (img : ImageData) (op : Option Op) :
    ∀ c ∈ (processSingleImage remote img op).trace, c.payload = imagePayload img.src := by
  simp only [processSingleImage]
  split
  · simp
  · rcases hr : remote (endpointOf op) (imagePayload img.src) with _ | resp <;>
      simp only [hr]
    · simp
    · split_ifs <;> simp

/-- A failing single-operation step leaves the image object untouched (only
the grayscale success branch assigns to the image). -/
lemma processSingleImage_image_of_error (remote : Remote) (img : ImageData) (op : Option Op)
    (e : String) (h : (processSingleImage remote img op).result = .error e) :
    (processSingleImage remote img op).image = img := by
  revert h
  simp only [processSingleImage]
  split
  · intro _; rfl
  · rcases hr : remote (endpointOf op) (imagePayload img.src) with _ | resp <;>
      simp only [hr]
    · simp
    · split_ifs <;> intro h2 <;> simp at h2

/-- The image component of a single-operation step differs from the input at
most in `grayscaleData`. -/
lemma processSingleImage_image_cases (remote : Remote) (img : ImageData) (op : Option Op) :
    (processSingleImage remote img op).image = img ∨
      ∃ p, (processSingleImage remote img op).image = { img with grayscaleData := some p } := by
  simp only [processSingleImage]
  split
  · exact Or.inl rfl
  · rcases hr : remote (endpointOf op) (imagePayload img.src) with _ | resp <;>
      simp only [hr]
    · exact Or.inl trivial
    · split_ifs <;>
        first | exact Or.inl trivial | exact Or.inl rfl | exact Or.inr ⟨resp, rfl⟩

/-! ### Concrete fixtures used by witnesses and counterexamples -/

def imgX : ImageData :=
  { id := "x", name := "x.png", size := 1, mimeType := "image/png",
    src := "data:image/png;base64,XSRC", processedSrc := none, selected := true,
    processing := false, processed := false, grayscaleData := none,
    width := 2, height := 2, lastOperation := none, processingTime := 0 }

def imgY : ImageData :=
  { imgX with id := "y", name := "y.png", src := "data:image/png;base64,YSRC" }

def imgZ : ImageData :=
  { imgX with processedSrc := some "data:image/png;base64,PREV" }

def s1 : AppState :=
  { loadedImages := [imgX, imgY], selectedImageIndices := [0, 1],
    currentOperation := some Op.rotate, operationQueue := [Op.rotate] }

def s4 : AppState :=
  { loadedImages := [imgZ], selectedImageIndices := [0],
    currentOperation := some Op.rotate, operationQueue := [Op.rotate] }

def s8 : AppState :=
  { loadedImages := [imgX, imgY], selectedImageIndices := [],
    currentOperation := some Op.blur, operationQueue := [Op.rotate, Op.blur] }

def remEcho : Remote := fun ep p => some (ep ++ "(" ++ p ++ ")")

def remXfail : Remote := fun _ p => if p = "XSRC" then none else some ("out(" ++ p ++ ")")

def fileA : FileInfo := { name := "a.png", size := 3, type := "image/png" }

def decA : DecodeOk := { src := "data:image/png;base64,AAA", width := 4, height := 4 }

def sPrior : AppState := { initState with loadedImages := [imgX] }

/-! ### Claim C6 -/

/-- Claim C6: invoking the dimension-comparison operation on an image that
has no stored grayscale derivative makes the step fail with the
missing-precondition error, and zero remote calls are issued for that step
(the check precedes the `fetch`). -/
theorem c6_missing_precondition (remote : Remote) (img : ImageData)
    (h : img.grayscaleData = none) :
    processSingleImage remote img (some Op.compareDimensions) =
      { result := .error "Please convert to grayscale first before comparing dimensions"
        image := img
        trace := [] } := by
  have hm : grayscaleMissing img = true := by rw [grayscaleMissing, h]
  rw [processSingleImage, if_pos ⟨rfl, hm⟩]

/-- Witness for C6: the fixture image has no grayscale derivative and the
step fails without any remote call even against an always-succeeding
backend. -/
theorem c6_missing_precondition_witness :
    imgX.grayscaleData = none ∧
      processSingleImage remEcho imgX (some Op.compareDimensions) =
        { result := .error "Please convert to grayscale first before comparing dimensions"
          image := imgX
          trace := [] } :=
  ⟨rfl, c6_missing_precondition remEcho imgX rfl⟩

/-! ### Claim C7 -/

/-- Claim C7: a dispatch with no operation selected (`currentOperation` null
and empty queue) fails with the no-operation error, and a dispatch with an
empty target index list fails with the no-targets error; in both cases the
state is returned unchanged and no remote call is issued. -/
theorem c7_dispatch_preconditions (remote : Remote) (elapsed : Nat) (s : AppState)
    (idxs : Option (List Nat)) :
    (s.currentOperation = none ∧ s.operationQueue = [] →
      processSelectedImages remote elapsed s idxs =
        { state := s, result := .err .noOperationSelected, trace := [] }) ∧
    (¬(s.currentOperation = none ∧ s.operationQueue = []) →
      idxs.getD s.selectedImageIndices = [] →
      processSelectedImages remote elapsed s idxs =
        { state := s, result := .err .noTargetsSelected, trace := [] }) := by
  constructor
  · intro h
    rw [processSelectedImages, if_pos h]
  · intro h1 h2
    rw [processSelectedImages, if_neg h1]
    simp [h2]

/-- Witness for C7: the initial state has no operation selected, and a
dispatch of `s1` with an explicitly empty index list has no targets; both
fail without touching the state or the network. -/
theorem c7_dispatch_preconditions_witness :
    processSelectedImages remEcho 1 initState none =
      { state := initState, result := .err .noOperationSelected, trace := [] } ∧
    processSelectedImages remEcho 1 s1 (some []) =
      { state := s1, result := .err .noTargetsSelected, trace := [] } :=
  ⟨(c7_dispatch_preconditions remEcho 1 initState none).1 ⟨rfl, rfl⟩,
   (c7_dispatch_preconditions remEcho 1 s1 (some [])).2 (by decide) rfl⟩

/-! ### Claim C3 -/

/-- Claim C3: selecting an operation of the fixed excluded set, with images
loaded, unconditionally makes the dispatched queue the singleton of that
operation, regardless of the prior queue contents.  In the source the
spec-level "queue" is realized by the pair
(`operationQueue`, `currentOperation`): the raw list is cleared, the
operation becomes `currentOperation`, and the queue the dispatcher executes
(`effectiveQueue`) is exactly `[op]`. -/
theorem c3_exclusive_singleton (s : AppState) (op : Op)
    (h : s.loadedImages ≠ []) (hex : isExcluded op = true) :
    (selectOperation op s).operationQueue = [] ∧
    (selectOperation op s).currentOperation = some op ∧
    effectiveQueue (selectOperation op s) = [op] := by
  rw [selectOperation, if_neg h, if_pos hex]
  exact ⟨rfl, rfl, rfl⟩

/-- Witness for C3: selecting `dimensions` on a state with two loaded images
and the prior queue `[rotate, blur]` yields the singleton dispatched queue. -/
theorem c3_exclusive_singleton_witness :
    s8.loadedImages ≠ [] ∧ isExcluded Op.dimensions = true ∧
    s8.operationQueue = [Op.rotate, Op.blur] ∧
    effectiveQueue (selectOperation Op.dimensions s8) = [Op.dimensions] :=
  ⟨by decide, by decide, rfl,
   (c3_exclusive_singleton s8 Op.dimensions (by decide) (by decide)).2.2⟩

/-! ### Claim C8 -/

/-- Claim C8 counterexample: with images loaded and the queue `[rotate, blur]`,
selecting the composable operation `rotate` twice in a row yields
`[blur, rotate]` — the first selection toggles the already-present entry off
and the second appends it at the end — which is not the prior queue with
`rotate` removed (`[blur]`).  So "selecting a composable operation twice in a
row removes it" fails when the operation was already queued. -/
theorem c8_toggle_counterexample :
    s8.loadedImages ≠ [] ∧ isExcluded Op.rotate = false ∧
    s8.operationQueue = [Op.rotate, Op.blur] ∧
    (selectOperation Op.rotate (selectOperation Op.rotate s8)).operationQueue =
      [Op.blur, Op.rotate] ∧
    s8.operationQueue.filter (· ≠ Op.rotate) = [Op.blur] ∧
    ([Op.blur, Op.rotate] : List Op) ≠ [Op.blur] :=
  ⟨by decide, by decide, rfl, by decide, by decide, by decide⟩

/-- Claim C8 (amended): with images loaded, for a composable operation that
is *not already in the queue*, selecting it twice in a row restores the
queue to its prior contents — the second selection undoes the first's
append. -/
theorem c8_toggle_amended (s : AppState) (op : Op) (h : s.loadedImages ≠ [])
    (hex : isExcluded op = false) (hmem : op ∉ s.operationQueue) :
    (selectOperation op (selectOperation op s)).operationQueue = s.operationQueue := by
  have hex2 : ¬(isExcluded op = true) := by simp [hex]
  have hq1 : (selectOperation op s).operationQueue = s.operationQueue ++ [op] := by
    rw [selectOperation, if_neg h, if_neg hex2, if_neg hmem]
  have hl1 : (selectOperation op s).loadedImages = s.loadedImages := by
    rw [selectOperation, if_neg h, if_neg hex2, if_neg hmem]
  have hl1ne : (selectOperation op s).loadedImages ≠ [] := by
    rw [hl1]; exact h
  have hmem2 : op ∈ (selectOperation op s).operationQueue := by
    rw [hq1]; simp
  have hq2 : (selectOperation op (selectOperation op s)).operationQueue =
      ((selectOperation op s).operationQueue).filter (· ≠ op) := by
    rw [selectOperation, if_neg hl1ne, if_neg hex2, if_pos hmem2]
  rw [hq2, hq1, List.filter_append]
  have h4 : ([op] : List Op).filter (· ≠ op) = [] := by simp
  rw [h4, List.append_nil]
  refine List.filter_eq_self.mpr (fun a ha => ?_)
  have han : a ≠ op := fun he => hmem (he ▸ ha)
  simpa using han

/-- Witness for C8 (amended): on `s1` (queue `[rotate]`), selecting `blur`
twice leaves the queue at `[rotate]`. -/
theorem c8_toggle_amended_witness :
    s1.loadedImages ≠ [] ∧ isExcluded Op.blur = false ∧ Op.blur ∉ s1.operationQueue ∧
    (selectOperation Op.blur (selectOperation Op.blur s1)).operationQueue =
      s1.operationQueue :=
  ⟨by decide, by decide, by decide,
   c8_toggle_amended s1 Op.blur (by decide) (by decide) (by decide)⟩

/-! ### Claim C2 -/

/-- Claim C2 counterexample: a `load()` call over two files of which exactly
the first decodes (K = 1, N = 2) leaves the registry empty, not containing
the one successfully decoded image — the handler clears the registry up
front and `Promise.all` discards partial successes.  A call whose single
file fails (K = 0) likewise does not leave the registry unchanged: the
pre-call contents are lost. -/
theorem c2_load_counterexample :
    sPrior.loadedImages ≠ [] ∧
    (handleMultipleImageLoad 7 [(fileA, some decA), (fileA, none)] sPrior).loadedImages = [] ∧
    (decodeResults 7 [(fileA, some decA), (fileA, none)]).filterMap id =
      [loadSingleImage 7 0 fileA decA] ∧
    ([] : List ImageData) ≠ [loadSingleImage 7 0 fileA decA] ∧
    (handleMultipleImageLoad 7 [(fileA, none)] sPrior).loadedImages ≠ sPrior.loadedImages :=
  ⟨by decide, by decide, by decide, by decide, by decide⟩

/-- The all-decodes-succeeded test commutes with building the indexed decode
results. -/
lemma decodeResultsFrom_all_isSome (now : Nat) :
    ∀ (files : List (FileInfo × Option DecodeOk)) (i : Nat),
      (decodeResultsFrom now i files).all Option.isSome =
        files.all (fun f => f.2.isSome)
  | [], _ => rfl
  | (f, d) :: rest, i => by
    simp [decodeResultsFrom, decodeResultsFrom_all_isSome now rest (i + 1)]

/-- Claim C2 (amended): a `load()` call with an empty file list changes
nothing.  When every file decodes, the registry ends as exactly the decoded
images in original submission order.  When at least one file fails to
decode, the registry ends empty (the call clears it at the start and the
all-or-nothing `Promise.all` never commits the partial successes), so prior
registry contents survive only the empty call. -/
theorem c2_load_amended (now : Nat) (files : List (FileInfo × Option DecodeOk))
    (s : AppState) :
    (files = [] → handleMultipleImageLoad now files s = s) ∧
    (files ≠ [] → files.all (fun f => f.2.isSome) = true →
      (handleMultipleImageLoad now files s).loadedImages =
        (decodeResults now files).filterMap id) ∧
    (files ≠ [] → files.all (fun f => f.2.isSome) = false →
      (handleMultipleImageLoad now files s).loadedImages = []) := by
  refine ⟨?_, ?_, ?_⟩
  · intro he
    rw [handleMultipleImageLoad, if_pos he]
  · intro hne hall
    have hd : (decodeResults now files).all Option.isSome = true := by
      rw [decodeResults, decodeResultsFrom_all_isSome]
      exact hall
    rw [handleMultipleImageLoad, if_neg hne]
    simp [hd]
  · intro hne hall
    have hd : (decodeResults now files).all Option.isSome = false := by
      rw [decodeResults, decodeResultsFrom_all_isSome]
      exact hall
    rw [handleMultipleImageLoad, if_neg hne]
    simp [hd]

/-- Witness for C2 (amended): one all-success call commits the decoded image
in order; one call with a failing decode empties the registry. -/
theorem c2_load_amended_witness :
    (handleMultipleImageLoad 7 [(fileA, some decA)] sPrior).loadedImages =
      (decodeResults 7 [(fileA, some decA)]).filterMap id ∧
    (handleMultipleImageLoad 7 [(fileA, some decA), (fileA, none)] sPrior).loadedImages = [] :=
  ⟨(c2_load_amended 7 [(fileA, some decA)] sPrior).2.1 (by decide) (by decide),
   (c2_load_amended 7 [(fileA, some decA), (fileA, none)] sPrior).2.2 (by decide) (by decide)⟩

/-! ### Claims C4 and C1 -/

/-- The first remote call of a chain goes to the head operation's endpoint
with the chain's starting source as payload. -/
lemma runChain_trace_head (remote : Remote) (nm : String) (op : Op) (rest : List Op)
    (src : String) (hop : op ≠ Op.compareDimensions) :
    ((runChain remote nm (op :: rest) src).2.2).head? =
      some { endpoint := opName op, payload := imagePayload src } := by
  have ht := processSingleImage_trace_of_ne remote (tempImage src nm) op hop
  rw [runChain]
  cases hres : (processSingleImage remote (tempImage src nm) (some op)).result with
  | ok newSrc =>
    simp only [hres, ht, List.singleton_append, List.head?_cons]
    rfl
  | error e =>
    simp only [hres, ht, List.head?_cons]
    rfl

/-- Claim C4 counterexample: dispatching the single-operation queue
`[rotate]` to an image whose processed output is present feeds the remote
call the payload of the image's *original* `src` ("XSRC"), not of its
processed output ("PREV") — the single-operation branch passes the real
image object and `processSingleImage` always reads `image.src`. -/
theorem c4_first_input_counterexample :
    imgZ.processedSrc = some "data:image/png;base64,PREV" ∧
    imagePayload "data:image/png;base64,PREV" = "PREV" ∧
    s4.operationQueue = [Op.rotate] ∧
    (processSelectedImages remEcho 3 s4 (some [0])).trace =
      [{ endpoint := "rotate", payload := "XSRC" }] ∧
    imagePayload imgZ.src = "XSRC" ∧
    ("XSRC" : String) ≠ "PREV" :=
  ⟨rfl, by decide, rfl, by decide, by decide, by decide⟩

/-- Claim C4 (amended): only a multi-operation chain starts from
`processedSrc || src` — its first step's remote call (when the head
operation issues one) carries the payload of the image's existing processed
output when present, else the original data.  A single-operation dispatch
always feeds the remote call the image's original `src`, even when a
processed output exists. -/
theorem c4_first_input_amended (remote : Remote) (elapsed : Nat) (queue : List Op)
    (curOp : Option Op) (img : ImageData) :
    (∀ op rest, queue = op :: rest → rest ≠ [] → op ≠ Op.compareDimensions →
      ((processImageAt remote elapsed queue curOp img).trace).head? =
        some { endpoint := opName op
               payload := imagePayload (processedOrOriginal img) }) ∧
    (queue.length ≤ 1 →
      ∀ c ∈ (processImageAt remote elapsed queue curOp img).trace,
        c.payload = imagePayload img.src) := by
  constructor
  · rintro op rest rfl hrest hop
    have hlen : 1 < (op :: rest).length := by
      cases rest with
      | nil => exact absurd rfl hrest
      | cons b t => simp [List.length_cons]
    have hh := runChain_trace_head remote img.name op rest (processedOrOriginal img) hop
    rw [processImageAt, if_pos hlen]
    rcases hrc : runChain remote img.name (op :: rest) (processedOrOriginal img)
      with ⟨res, applied, tr⟩
    rw [hrc] at hh
    cases res with
    | ok fs => simpa [hrc] using hh
    | error e => simpa [hrc] using hh
  · intro hlen c hc
    have hnl : ¬(1 < queue.length) := by omega
    rw [processImageAt, if_neg hnl] at hc
    cases hres : (processSingleImage remote img curOp).result with
    | ok pimg =>
      simp only [hres] at hc
      exact processSingleImage_payloads remote img curOp c hc
    | error e =>
      simp only [hres] at hc
      exact processSingleImage_payloads remote img curOp c hc

/-- Witness for C4 (amended): on the fixture image with processed output
"PREV" and original "XSRC", the two-operation chain's first call carries
"PREV", and the single-operation dispatch's one call carries the original
payload. -/
theorem c4_first_input_amended_witness :
    ((processImageAt remEcho 3 [Op.rotate, Op.blur] (some Op.blur) imgZ).trace).head? =
      some { endpoint := "rotate", payload := "PREV" } ∧
    RemoteCall.payload { endpoint := "rotate", payload := "XSRC" } =
      imagePayload imgZ.src :=
  ⟨(c4_first_input_amended remEcho 3 [Op.rotate, Op.blur] (some Op.blur) imgZ).1
      Op.rotate [Op.blur] rfl (by decide) (by decide),
   (c4_first_input_amended remEcho 3 [Op.rotate] (some Op.rotate) imgZ).2 (by decide)
      { endpoint := "rotate", payload := "XSRC" } (by decide)⟩

/-- Claim C1: on the batch `[imgX, imgY]` with the single-operation queue
`[rotate]` and a backend that fails exactly on imgX's payload, the
dispatcher processes both targets (imgY is updated despite imgX's failure
— that part of the claim holds), exactly one image succeeds, yet the final
tally reports `2/2`: the `processed` counter is incremented once per
completed iteration regardless of outcome, so the
"Successfully processed 2/2 images" status counts attempts, not successes,
contradicting both the claimed `1/2` tally and the message's own wording. -/
theorem c1_tally_counts_attempts :
    (processSelectedImages remXfail 5 s1 none).result =
      .report 2 2 [0] ∧
    ((processSelectedImages remXfail 5 s1 none).state.loadedImages.map
        (fun i => i.processed)) = [false, true] ∧
    (((processSelectedImages remXfail 5 s1 none).state.loadedImages.filter
        (fun i => i.processed)).length) = 1 :=
  ⟨by decide, by decide, by decide⟩

/-! ### Claim C10 -/

/-- Claim C10: in a multi-operation chain each step runs against a throw-away
temporary object, so the grayscale buffer the grayscale branch writes onto
its image argument is discarded with the temporary: a dispatch with more
than one queued operation never changes the real image's `grayscaleData`
(hence can never establish the dimension-comparison precondition), while a
single-operation grayscale dispatch, whose remote call succeeds, stores the
response on the registry image's `grayscaleData`. -/
theorem c10_grayscale_artifact (remote : Remote) (elapsed : Nat) (queue : List Op)
    (curOp : Option Op) (img : ImageData) :
    (1 < queue.length →
      ((processImageAt remote elapsed queue curOp img).image).grayscaleData =
        img.grayscaleData) ∧
    (∀ p, queue.length ≤ 1 → curOp = some Op.grayscale →
      remote "grayscale" (imagePayload img.src) = some p →
      ((processImageAt remote elapsed queue curOp img).image).grayscaleData = some p) := by
  constructor
  · intro hlen
    rw [processImageAt, if_pos hlen]
    rcases hrc : runChain remote img.name queue (processedOrOriginal img) with ⟨res, applied, tr⟩
    cases res <;> simp [hrc]
  · rintro p hlen rfl hrem
    have hnl : ¬(1 < queue.length) := by omega
    have hrem2 : remote (endpointOf (some Op.grayscale)) (imagePayload img.src) = some p := hrem
    have hstep : processSingleImage remote img (some Op.grayscale) =
        { result := .ok ("data:image/png;base64," ++ p)
          image := { img with grayscaleData := some p }
          trace := [{ endpoint := endpointOf (some Op.grayscale)
                      payload := imagePayload img.src }] } := by
      rw [processSingleImage, if_neg (by simp)]
      simp only [hrem2]
      rfl
    rw [processImageAt, if_neg hnl]
    simp only [hstep]

/-- Witness for C10: against an always-succeeding backend, a chain of
grayscale followed by blur leaves the registry image's `grayscaleData`
untouched (`none`), while a single-operation grayscale dispatch stores the
backend response. -/
theorem c10_grayscale_artifact_witness :
    ((processImageAt remEcho 3 [Op.grayscale, Op.blur] (some Op.blur) imgX).image).grayscaleData =
      imgX.grayscaleData ∧
    ((processImageAt remEcho 3 [Op.grayscale] (some Op.grayscale) imgX).image).grayscaleData =
      some "grayscale(XSRC)" :=
  ⟨(c10_grayscale_artifact remEcho 3 [Op.grayscale, Op.blur] (some Op.blur) imgX).1
      (by decide),
   (c10_grayscale_artifact remEcho 3 [Op.grayscale] (some Op.grayscale) imgX).2
      "grayscale(XSRC)" (by decide) rfl (by decide)⟩

/-! ### Batch-loop infrastructure (used by claims C5 and C9) -/

/-- When every target index is in range, the loop completes (no abort), the
image array keeps its length, and the `processed` counter ends at the number
of targets — regardless of how many per-image runs failed. -/
lemma runBatch_basic (remote : Remote) (elapsed : Nat) (queue : List Op) (curOp : Option Op)
    (indices : List Nat) :
    ∀ (imgs : List ImageData), (∀ i ∈ indices, i < imgs.length) →
      (runBatch remote elapsed queue curOp indices imgs).aborted = false ∧
      (runBatch remote elapsed queue curOp indices imgs).images.length = imgs.length ∧
      (runBatch remote elapsed queue curOp indices imgs).count = indices.length := by
  induction indices with
  | nil => intro imgs _; refine ⟨rfl, rfl, rfl⟩
  | cons a rest ih =>
    intro imgs hv
    have ha : a < imgs.length := hv a (by simp)
    have hsome : imgs[a]? = some imgs[a] := List.getElem?_eq_getElem ha
    have hv2 : ∀ j ∈ rest,
        j < (imgs.set a (processImageAt remote elapsed queue curOp imgs[a]).image).length := by
      intro j hj
      rw [List.length_set]
      exact hv j (by simp [hj])
    have hrec := ih (imgs.set a (processImageAt remote elapsed queue curOp imgs[a]).image) hv2
    simp only [runBatch, hsome]
    refine ⟨hrec.1, by rw [hrec.2.1, List.length_set], by rw [hrec.2.2, List.length_cons]⟩

/-- Indices recorded as failures all come from the target list. -/
lemma runBatch_failures_subset (remote : Remote) (elapsed : Nat) (queue : List Op)
    (curOp : Option Op) (indices : List Nat) :
    ∀ (imgs : List ImageData) (x : Nat),
      x ∈ (runBatch remote elapsed queue curOp indices imgs).failures → x ∈ indices := by
  induction indices with
  | nil => intro imgs x hx; exact absurd hx (by simp [runBatch])
  | cons a rest ih =>
    intro imgs x hx
    rw [runBatch] at hx
    cases hsome : imgs[a]? with
    | none => rw [hsome] at hx; exact absurd hx (by simp)
    | some ia =>
      simp only [hsome] at hx
      by_cases hok : (processImageAt remote elapsed queue curOp ia).ok
      · simp only [hok, if_true] at hx
        exact List.mem_cons_of_mem a (ih _ x hx)
      · simp only [hok] at hx
        rcases List.mem_cons.mp hx with rfl | hx2
        · exact List.mem_cons_self x rest
        · exact List.mem_cons_of_mem a (ih _ x hx2)

/-- With distinct in-range target indices, each target's final registry entry
is exactly the outcome of its own per-image run on its pre-batch state, and
it is recorded among the failures exactly when that run failed. -/
lemma runBatch_get (remote : Remote) (elapsed : Nat) (queue : List Op) (curOp : Option Op)
    (indices : List Nat) :
    ∀ (imgs : List ImageData), indices.Nodup → (∀ i ∈ indices, i < imgs.length) →
      (∀ j, j ∉ indices →
        (runBatch remote elapsed queue curOp indices imgs).images[j]? = imgs[j]?) ∧
      (∀ i ∈ indices, ∀ img, imgs[i]? = some img →
        (runBatch remote elapsed queue curOp indices imgs).images[i]? =
          some (processImageAt remote elapsed queue curOp img).image ∧
        ((processImageAt remote elapsed queue curOp img).ok = false ↔
          i ∈ (runBatch remote elapsed queue curOp indices imgs).failures)) := by
  induction indices with
  | nil =>
    intro imgs _ _
    constructor
    · intro j _; rfl
    · intro i hi; exact absurd hi (by simp)
  | cons a rest ih =>
    intro imgs hnd hv
    have ha : a < imgs.length := hv a (by simp)
    have hsome : imgs[a]? = some imgs[a] := List.getElem?_eq_getElem ha
    have hna : a ∉ rest := (List.nodup_cons.mp hnd).1
    have hnd2 : rest.Nodup := (List.nodup_cons.mp hnd).2
    have hv2 : ∀ j ∈ rest,
        j < (imgs.set a (processImageAt remote elapsed queue curOp imgs[a]).image).length := by
      intro j hj
      rw [List.length_set]
      exact hv j (by simp [hj])
    obtain ⟨ihA, ihB⟩ :=
      ih (imgs.set a (processImageAt remote elapsed queue curOp imgs[a]).image) hnd2 hv2
    constructor
    · intro j hj
      have hjr : j ∉ rest := fun h2 => hj (List.mem_cons_of_mem a h2)
      have hja : a ≠ j := fun he => hj (he ▸ List.mem_cons_self a rest)
      simp only [runBatch, hsome]
      rw [ihA j hjr, List.getElem?_set_ne hja]
    · intro i hi img himg
      rcases List.mem_cons.mp hi with rfl | hir
      · have himg2 : img = imgs[i] := by
          rw [hsome] at himg
          exact (Option.some.injEq .. ▸ himg).symm
        subst himg2
        constructor
        · simp only [runBatch, hsome]
          rw [ihA i hna, List.getElem?_set_eq_of_lt _ ha]
        · simp only [runBatch, hsome]
          cases hok : (processImageAt remote elapsed queue curOp imgs[i]).ok with
          | true =>
            rw [if_pos rfl]
            constructor
            · intro hfalse; exact absurd hfalse (by decide)
            · intro hmem
              exact absurd (runBatch_failures_subset remote elapsed queue curOp rest _ i hmem)
                hna
          | false =>
            rw [if_neg (by decide)]
            constructor
            · intro _; exact List.mem_cons_self i _
            · intro _; rfl
      · have hia : i ≠ a := fun he => hna (he ▸ hir)
        have himg2 :
            (imgs.set a (processImageAt remote elapsed queue curOp imgs[a]).image)[i]? =
              some img := by
          rw [List.getElem?_set_ne (fun he => hia he.symm), himg]
        obtain ⟨hB1, hB2⟩ := ihB i hir img himg2
        constructor
        · simp only [runBatch, hsome]
          exact hB1
        · simp only [runBatch, hsome]
          rw [hB2]
          cases hok : (processImageAt remote elapsed queue curOp imgs[a]).ok with
          | true => rw [if_pos rfl]
          | false =>
            rw [if_neg (by decide)]
            constructor
            · intro h2; exact List.mem_cons_of_mem a h2
            · intro h2
              rcases List.mem_cons.mp h2 with rfl | h3
              · exact absurd rfl hia
              · exact h3

/-- A failed multi-operation chain changes nothing on the image except
clearing the `processing` flag: the chain works on temporaries and the
commit lines never run. -/
lemma processImageAt_fail_fields (remote : Remote) (elapsed : Nat) (queue : List Op)
    (curOp : Option Op) (img : ImageData) (hq : 1 < queue.length)
    (hfail : (processImageAt remote elapsed queue curOp img).ok = false) :
    (processImageAt remote elapsed queue curOp img).image =
      { img with processing := false } := by
  rw [processImageAt, if_pos hq] at hfail ⊢
  rcases hrc : runChain remote img.name queue (processedOrOriginal img) with ⟨res, applied, tr⟩
  rw [hrc] at hfail
  cases res with
  | ok fs => exact Bool.noConfusion hfail
  | error e => rfl

/-! ### Claim C5 -/

/-- Claim C5: when a multi-operation per-image chain fails at some step, the
image's `processedSrc`, `processed` flag and `lastOperation` label keep
exactly their pre-run values (the final image is the pre-run image with only
`processing` reset — no partial commit), and the image's index is reported
among the batch's failures while the dispatch still completes with a
report. -/
theorem c5_no_partial_commit (remote : Remote) (elapsed : Nat) (s : AppState)
    (idxs : Option (List Nat)) (i : Nat) (img : ImageData)
    (hq : 1 < s.operationQueue.length)
    (hnd : (idxs.getD s.selectedImageIndices).Nodup)
    (hv : ∀ j ∈ idxs.getD s.selectedImageIndices, j < s.loadedImages.length)
    (hi : i ∈ idxs.getD s.selectedImageIndices)
    (himg : s.loadedImages[i]? = some img)
    (hfail : (processImageAt remote elapsed s.operationQueue s.currentOperation img).ok
      = false) :
    (processSelectedImages remote elapsed s idxs).state.loadedImages[i]? =
      some { img with processing := false } ∧
    (processSelectedImages remote elapsed s idxs).result =
      .report (idxs.getD s.selectedImageIndices).length
              (idxs.getD s.selectedImageIndices).length
              (runBatch remote elapsed s.operationQueue s.currentOperation
                (idxs.getD s.selectedImageIndices) s.loadedImages).failures ∧
    i ∈ (runBatch remote elapsed s.operationQueue s.currentOperation
          (idxs.getD s.selectedImageIndices) s.loadedImages).failures := by
  have hg1 : ¬(s.currentOperation = none ∧ s.operationQueue = []) := by
    rintro ⟨-, hq2⟩
    rw [hq2] at hq
    exact absurd hq (by decide)
  have hgne : ¬(idxs.getD s.selectedImageIndices = []) := by
    intro he
    rw [he] at hi
    cases hi
  have hbasic := runBatch_basic remote elapsed s.operationQueue s.currentOperation
    (idxs.getD s.selectedImageIndices) s.loadedImages hv
  have hget := (runBatch_get remote elapsed s.operationQueue s.currentOperation
    (idxs.getD s.selectedImageIndices) s.loadedImages hnd hv).2 i hi img himg
  have hff := processImageAt_fail_fields remote elapsed s.operationQueue s.currentOperation
    img hq hfail
  simp only [processSelectedImages, if_neg hg1, if_neg hgne]
  refine ⟨?_, ?_, hget.2.mp hfail⟩
  · rw [hget.1, hff]
  · rw [hbasic.1, hbasic.2.2]
    rfl

def remFailBlur : Remote :=
  fun ep p => if ep = "blur" then none else some (ep ++ "(" ++ p ++ ")")

def imgW : ImageData :=
  { imgX with processedSrc := some "data:image/png;base64,OLD", processed := true,
              lastOperation := some "flip", processingTime := 11 }

def s5 : AppState :=
  { loadedImages := [imgW], selectedImageIndices := [0],
    currentOperation := some Op.blur, operationQueue := [Op.rotate, Op.blur] }

/-- Witness for C5: against a backend failing exactly on the blur endpoint,
running `[rotate, blur]` over an already-processed image leaves its
committed state exactly as before the run (only `processing` reset) and
reports the failure. -/
theorem c5_no_partial_commit_witness :
    (processSelectedImages remFailBlur 9 s5 (some [0])).state.loadedImages[0]? =
      some { imgW with processing := false } ∧
    (processSelectedImages remFailBlur 9 s5 (some [0])).result =
      .report 1 1 (runBatch remFailBlur 9 s5.operationQueue s5.currentOperation
        [0] s5.loadedImages).failures ∧
    0 ∈ (runBatch remFailBlur 9 s5.operationQueue s5.currentOperation
          [0] s5.loadedImages).failures :=
  c5_no_partial_commit remFailBlur 9 s5 (some [0]) 0 imgW (by decide) (by decide)
    (by decide) (by decide) (by decide) (by decide)

/-! ### Invariant infrastructure for claim C9 -/

/-- Every catalog identifier is a non-empty string. -/
lemma opName_ne_empty (op : Op) : opName op ≠ "" := by
  cases op <;> decide

lemma append_ne_empty_left (a b : String) (ha : a ≠ "") : a ++ b ≠ "" := by
  intro h
  apply ha
  have hd : a.data ++ b.data = ([] : List Char) := congrArg String.data h
  have ha2 : a.data = [] := (List.append_eq_nil.mp hd).1
  cases a with
  | mk d =>
    have hdd : d = [] := ha2
    rw [hdd]

/-- The joined chain label of a non-empty applied list is non-empty. -/
lemma joinChain_ne_empty : ∀ (l : List Op), l ≠ [] → joinChain l ≠ ""
  | [], h => absurd rfl h
  | [op], _ => opName_ne_empty op
  | op :: op2 :: rest, _ => by
    show opName op ++ " → " ++ joinChain (op2 :: rest) ≠ ""
    exact append_ne_empty_left _ _ (append_ne_empty_left _ _ (opName_ne_empty op))

/-- A successful chain applied every queued operation, in order. -/
lemma runChain_ok_applied (remote : Remote) (nm : String) :
    ∀ (queue : List Op) (src out : String) (applied : List Op) (tr : List RemoteCall),
      runChain remote nm queue src = (.ok out, applied, tr) → applied = queue := by
  intro queue
  induction queue with
  | nil =>
    intro src out applied tr h
    rw [runChain] at h
    simp only [Prod.mk.injEq] at h
    exact h.2.1.symm
  | cons op rest ih =>
    intro src out applied tr h
    rw [runChain] at h
    cases hres : (processSingleImage remote (tempImage src nm) (some op)).result with
    | ok newSrc =>
      rcases hrc : runChain remote nm rest newSrc with ⟨r2, a2, t2⟩
      simp only [hres, hrc, Prod.mk.injEq] at h
      obtain ⟨h1, h2, -⟩ := h
      have ha2 : a2 = rest := ih newSrc out a2 t2 (by rw [hrc, h1])
      rw [← h2, ha2]
    | error e =>
      simp only [hres, Prod.mk.injEq] at h
      exact absurd h.1 (by simp)

/-- The spec invariant on one image: once processed, the committed output is
present and the operation label is a non-empty string. -/
def ImgInv (img : ImageData) : Prop :=
  img.processed = true →
    img.processedSrc ≠ none ∧ img.lastOperation ≠ none ∧ img.lastOperation ≠ some ""

/-- A per-image run preserves the processed-image invariant, provided the
dispatch is meaningful: either the queue drives a multi-operation chain or a
current operation exists for the single-operation branch. -/
lemma processImageAt_preserves_ImgInv (remote : Remote) (elapsed : Nat) (queue : List Op)
    (curOp : Option Op) (img : ImageData)
    (hok : 1 < queue.length ∨ curOp ≠ none) (hI : ImgInv img) :
    ImgInv (processImageAt remote elapsed queue curOp img).image := by
  by_cases hq : 1 < queue.length
  · rw [processImageAt, if_pos hq]
    rcases hrc : runChain remote img.name queue (processedOrOriginal img) with ⟨res, applied, tr⟩
    cases res with
    | ok fs =>
      intro _
      have happ : applied = queue := runChain_ok_applied remote img.name queue _ _ _ _ hrc
      have hqe : queue ≠ [] := by
        intro he
        rw [he] at hq
        exact absurd hq (by decide)
      refine ⟨by simp, by simp, ?_⟩
      intro hcon
      have : joinChain applied = "" := by injection hcon
      exact joinChain_ne_empty applied (happ ▸ hqe) this
    | error e =>
      intro hp
      exact hI hp
  · have hco : curOp ≠ none := by
      rcases hok with h | h
      · exact absurd h hq
      · exact h
    obtain ⟨op, rfl⟩ := Option.ne_none_iff_exists'.mp hco
    rw [processImageAt, if_neg hq]
    cases hres : (processSingleImage remote img (some op)).result with
    | ok pimg =>
      simp only [hres]
      intro _
      refine ⟨by simp, by simp, ?_⟩
      intro hcon
      have : opName op = "" := by injection hcon
      exact opName_ne_empty op this
    | error e =>
      simp only [hres]
      have himg := processSingleImage_image_of_error remote img (some op) e hres
      rw [himg]
      intro hp
      exact hI hp

/-- Running the batch loop preserves any per-image property that each
per-image run preserves. -/
lemma runBatch_preserves (remote : Remote) (elapsed : Nat) (queue : List Op)
    (curOp : Option Op) (P : ImageData → Prop)
    (hP : ∀ img, P img → P (processImageAt remote elapsed queue curOp img).image)
    (indices : List Nat) :
    ∀ (imgs : List ImageData), (∀ img ∈ imgs, P img) →
      ∀ img ∈ (runBatch remote elapsed queue curOp indices imgs).images, P img := by
  induction indices with
  | nil => intro imgs h img hm; exact h img hm
  | cons a rest ih =>
    intro imgs h img hm
    rw [runBatch] at hm
    cases hsome : imgs[a]? with
    | none =>
      rw [hsome] at hm
      exact h img hm
    | some ia =>
      simp only [hsome] at hm
      refine ih (imgs.set a (processImageAt remote elapsed queue curOp ia).image) ?_ img hm
      intro x hx
      rcases List.mem_or_eq_of_mem_set hx with hx2 | rfl
      · exact h x hx2
      · exact hP ia (h ia (List.getElem?_mem hsome))

/-- State-level invariants: every loaded image satisfies the processed-image
invariant, and a non-empty queue always has a current operation (the source
maintains `currentOperation` as the last queue entry through every queue
mutation). -/
def StateInv (s : AppState) : Prop := ∀ img ∈ s.loadedImages, ImgInv img

def QueueInv (s : AppState) : Prop := s.operationQueue ≠ [] → s.currentOperation ≠ none

def AppInv (s : AppState) : Prop := StateInv s ∧ QueueInv s

/-- Freshly decoded images are unprocessed. -/
lemma decodeResultsFrom_mem (now : Nat) :
    ∀ (files : List (FileInfo × Option DecodeOk)) (i : Nat) (img : ImageData),
      some img ∈ decodeResultsFrom now i files → img.processed = false := by
  intro files
  induction files with
  | nil => intro i img h; exact absurd h (by simp [decodeResultsFrom])
  | cons fd rest ih =>
    intro i img h
    rcases fd with ⟨f, d⟩
    rw [decodeResultsFrom] at h
    rcases List.mem_cons.mp h with he | hm
    · cases d with
      | none => exact absurd he (by simp)
      | some dec =>
        have : img = loadSingleImage now i f dec := by
          simp only [Option.map_some'] at he
          injection he
        subst this
        rfl
    · exact ih (i + 1) img hm

lemma load_preserves (now : Nat) (files : List (FileInfo × Option DecodeOk)) (s : AppState)
    (h : AppInv s) : AppInv (handleMultipleImageLoad now files s) := by
  simp only [handleMultipleImageLoad]
  split_ifs with h1 h2
  · exact h
  · refine ⟨?_, h.2⟩
    intro img hm
    simp only [List.mem_filterMap, id] at hm
    obtain ⟨o, ho, hoi⟩ := hm
    intro hp
    have hpf : img.processed = false := by
      subst hoi
      exact decodeResultsFrom_mem now files 0 img ho
    rw [hpf] at hp
    cases hp
  · refine ⟨?_, h.2⟩
    intro img hm
    exact absurd hm (by simp)

lemma toggle_preserves (i : Nat) (s : AppState) (h : AppInv s) :
    AppInv (toggleImageSelection i s) := by
  rw [toggleImageSelection]
  cases hi : s.loadedImages[i]? with
  | none => exact h
  | some img0 =>
    constructor
    · intro x hx
      rcases List.mem_or_eq_of_mem_set hx with hx2 | rfl
      · exact h.1 x hx2
      · exact h.1 img0 (List.getElem?_mem hi)
    · exact h.2

lemma selectOp_preserves (op : Op) (s : AppState) (h : AppInv s) :
    AppInv (selectOperation op s) := by
  simp only [selectOperation]
  split_ifs with h1 h2 h3
  · exact h
  · exact ⟨h.1, fun hne => absurd rfl hne⟩
  · refine ⟨h.1, fun hne => ?_⟩
    have hne2 : s.operationQueue.filter (· ≠ op) ≠ [] := hne
    have hs : (s.operationQueue.filter (· ≠ op)).getLast?.isSome = true :=
      (List.getLast?_isSome).mpr hne2
    intro hco
    have hco2 : (s.operationQueue.filter (· ≠ op)).getLast? = none := hco
    rw [hco2] at hs
    cases hs
  · refine ⟨h.1, fun hne => ?_⟩
    have hs : (s.operationQueue ++ [op]).getLast?.isSome = true :=
      (List.getLast?_isSome).mpr (by simp)
    intro hco
    have hco2 : (s.operationQueue ++ [op]).getLast? = none := hco
    rw [hco2] at hs
    cases hs

lemma removeQueued_preserves (op : Op) (s : AppState) (h : AppInv s) :
    AppInv (removeFromQueue op s) := by
  simp only [removeFromQueue]
  split_ifs with h1
  · exact ⟨h.1, fun hne => absurd rfl hne⟩
  · refine ⟨h.1, fun hne => ?_⟩
    have hs : (s.operationQueue.filter (· ≠ op)).getLast?.isSome = true :=
      (List.getLast?_isSome).mpr h1
    intro hco
    have hco2 : (s.operationQueue.filter (· ≠ op)).getLast? = none := hco
    rw [hco2] at hs
    cases hs

lemma clearQueue_preserves (s : AppState) (h : AppInv s) :
    AppInv (clearOperationQueue s) :=
  ⟨h.1, fun hne => absurd rfl hne⟩

lemma removeImage_preserves (i : Nat) (s : AppState) (h : AppInv s) :
    AppInv (removeSingle i s) := by
  rw [removeSingle]
  split_ifs with h1
  · exact ⟨fun img hm => h.1 img (List.mem_of_mem_eraseIdx hm), h.2⟩
  · exact h

lemma clearAll_preserves (s : AppState) (h : AppInv s) :
    AppInv (clearAllImages s) :=
  ⟨fun img hm => absurd hm (by simp [clearAllImages]), fun hne => absurd rfl hne⟩

lemma dispatch_preserves (remote : Remote) (elapsed : Nat) (idxs : Option (List Nat))
    (s : AppState) (h : AppInv s) :
    AppInv (processSelectedImages remote elapsed s idxs).state := by
  have hmain : ¬(s.currentOperation = none ∧ s.operationQueue = []) →
      ∀ img ∈ (runBatch remote elapsed s.operationQueue s.currentOperation
        (idxs.getD s.selectedImageIndices) s.loadedImages).images, ImgInv img := by
    intro h1 img hm
    refine runBatch_preserves remote elapsed s.operationQueue s.currentOperation ImgInv
      ?_ _ s.loadedImages h.1 img hm
    intro x hx
    refine processImageAt_preserves_ImgInv remote elapsed _ _ x ?_ hx
    by_cases hq : 1 < s.operationQueue.length
    · exact Or.inl hq
    · right
      cases hqe : s.operationQueue with
      | nil =>
        intro hco
        exact h1 ⟨hco, hqe⟩
      | cons a t => exact h.2 (by rw [hqe]; simp)
  simp only [processSelectedImages]
  split_ifs with h1 h2 h3
  · exact h
  · exact h
  · exact ⟨hmain h1, h.2⟩
  · exact ⟨hmain h1, h.2⟩

/-- The user-visible transitions of the pipeline state: loading files,
toggling image selection, selecting / unqueueing / clearing operations,
removing images, clearing everything, and dispatching a batch (with an
arbitrary backend, timing and explicit target list). -/
inductive Step : AppState → AppState → Prop
  | load (now : Nat) (files : List (FileInfo × Option DecodeOk)) (s : AppState) :
      Step s (handleMultipleImageLoad now files s)
  | toggleSelection (i : Nat) (s : AppState) : Step s (toggleImageSelection i s)
  | selectOp (op : Op) (s : AppState) : Step s (selectOperation op s)
  | removeQueued (op : Op) (s : AppState) : Step s (removeFromQueue op s)
  | clearQueue (s : AppState) : Step s (clearOperationQueue s)
  | removeImage (i : Nat) (s : AppState) : Step s (removeSingle i s)
  | clearAll (s : AppState) : Step s (clearAllImages s)
  | dispatch (remote : Remote) (elapsed : Nat) (idxs : Option (List Nat)) (s : AppState) :
      Step s (processSelectedImages remote elapsed s idxs).state

/-- States reachable from the freshly loaded page. -/
def Reachable (s : AppState) : Prop := Relation.ReflTransGen Step initState s

lemma step_preserves (s t : AppState) (h : AppInv s) (hst : Step s t) : AppInv t := by
  cases hst with
  | load now files _ => exact load_preserves now files s h
  | toggleSelection i _ => exact toggle_preserves i s h
  | selectOp op _ => exact selectOp_preserves op s h
  | removeQueued op _ => exact removeQueued_preserves op s h
  | clearQueue _ => exact clearQueue_preserves s h
  | removeImage i _ => exact removeImage_preserves i s h
  | clearAll _ => exact clearAll_preserves s h
  | dispatch remote elapsed idxs _ => exact dispatch_preserves remote elapsed idxs s h

lemma reachable_inv (s : AppState) (h : Reachable s) : AppInv s := by
  induction h with
  | refl =>
    constructor
    · intro img hm
      exact absurd hm (by simp [initState])
    · intro hne
      exact absurd rfl hne
  | tail hab hbc ih => exact step_preserves _ _ ih hbc

/-! ### Claim C9 -/

/-- Claim C9: in every state reachable through loading, selection toggling,
operation selection / removal, clearing, image removal, and batch dispatches
(any backend, any outcome), each loaded image with `processed = true` has a
present `processedSrc` and a non-empty `lastOperation` label. -/
theorem c9_processed_invariant (s : AppState) (h : Reachable s) (img : ImageData)
    (hm : img ∈ s.loadedImages) (hp : img.processed = true) :
    img.processedSrc ≠ none ∧ img.lastOperation ≠ none ∧ img.lastOperation ≠ some "" :=
  (reachable_inv s h).1 img hm hp

def sLoaded : AppState := handleMultipleImageLoad 0 [(fileA, some decA)] initState

def sQueued : AppState := selectOperation Op.rotate sLoaded

def demoState : AppState := (processSelectedImages remEcho 4 sQueued (some [0])).state

lemma demoState_reachable : Reachable demoState :=
  Relation.ReflTransGen.head (Step.load 0 [(fileA, some decA)] initState)
    (Relation.ReflTransGen.head (Step.selectOp Op.rotate sLoaded)
      (Relation.ReflTransGen.single (Step.dispatch remEcho 4 (some [0]) sQueued)))

def demoImg : ImageData :=
  { id := "img_0_0", name := "a.png", size := 3, mimeType := "image/png",
    src := "data:image/png;base64,AAA",
    processedSrc := some "data:image/png;base64,rotate(AAA)", selected := false,
    processing := false, processed := true, grayscaleData := none, width := 4, height := 4,
    lastOperation := some "rotate", processingTime := 4 }

/-- Witness for C9: a state reached by load, select-rotate, successful
dispatch holds a processed image, and the invariant conclusion evaluates on
it. -/
theorem c9_processed_invariant_witness :
    demoImg ∈ demoState.loadedImages ∧ demoImg.processed = true ∧
    (demoImg.processedSrc ≠ none ∧ demoImg.lastOperation ≠ none ∧
      demoImg.lastOperation ≠ some "") :=
  ⟨by decide, rfl,
   c9_processed_invariant demoState demoState_reachable demoImg (by decide) rfl⟩
